import Mathlib

/-!
# Verification of the Miden MAST forest, node constructors, and library packaging

This file gives a shallow embedding of the MAST-forest subsystem of the
Miden assembler (`core/src/mast/mod.rs`, `core/src/mast/node/call_node.rs`,
`core/src/mast/node/external.rs`), the token-level parser helpers
(`assembly/src/tokens/mod.rs`), and the library packaging layer
(`assembly/src/library/mod.rs`), and proves properties of those
definitions.

The sponge hash (`Rpo256`) is a library-provided primitive; following the
standard idealized-hash treatment, digests are embedded as a free algebra:
`merge_in_domain` and block hashing are injective constructors, so distinct
hashing inputs yield distinct digests (no collisions).  Externally supplied
256-bit digests are injected via `Digest.word`.
-/

namespace Miden

/-- A 256-bit RPO digest, embedded as a free algebra over the hashing
operations.  `word n` injects an externally supplied digest (e.g. the
digest stored in an `External` node); `word 0` plays the role of
`RpoDigest::default()` (the all-zero word); `blockHash ops` is the digest
of a basic block over its operations; `mergeInDomain a b dom` is
`hasher::merge_in_domain(&[a, b], dom)`; `dynDigest` is the fixed constant
digest of the `Dyn` node. -/
inductive Digest where
  | word : Nat → Digest
  | blockHash : List Nat → Digest
  | mergeInDomain : Digest → Digest → Nat → Digest
  | dynDigest : Digest
deriving DecidableEq, Repr

/-- `RpoDigest::default()`: the all-zero word. -/
def zeroWord : Digest := Digest.word 0

/-- Modelled from the spec: the VM opcode constants (`OPCODE_JOIN`,
`OPCODE_SPLIT`, `OPCODE_LOOP`, `OPCODE_CALL`, `OPCODE_SYSCALL`) used as
hashing domain tags live in the core ops module, which is not among the
sources; per the spec each control variant has its own tag and the tags
are pairwise distinct, which is all that matters here. -/
def OPCODE_JOIN : Nat := 1

/-- Modelled from the spec: see `OPCODE_JOIN`. -/
def OPCODE_SPLIT : Nat := 2

/-- Modelled from the spec: see `OPCODE_JOIN`. -/
def OPCODE_LOOP : Nat := 3

/-- Modelled from the spec: see `OPCODE_JOIN`. -/
def OPCODE_CALL : Nat := 4

/-- Modelled from the spec: see `OPCODE_JOIN`. -/
def OPCODE_SYSCALL : Nat := 5

/-- `CallNode::CALL_DOMAIN` (`call_node.rs`). -/
def CALL_DOMAIN : Nat := OPCODE_CALL

/-- `CallNode::SYSCALL_DOMAIN` (`call_node.rs`). -/
def SYSCALL_DOMAIN : Nat := OPCODE_SYSCALL

/-- `CallNode` (`call_node.rs`): callee id, syscall flag, and the digest
computed at construction time.  The decorator spans (`before_enter`,
`after_exit`) are debug annotations that participate neither in digests
nor in any property below and are omitted. -/
structure CallNode where
  callee : Nat
  is_syscall : Bool
  digest : Digest
deriving DecidableEq, Repr

/-- `MastNode` (`mast/mod.rs`): the tagged union of node variants.  The
control variants store the digest computed at construction, exactly as the
Rust structs do; `External` stores the supplied digest verbatim.  Basic
blocks carry their operation list (operations embedded as opaque `Nat`
codes; decorators omitted as above). -/
inductive MastNode where
  | block : List Nat → MastNode
  | join : Nat → Nat → Digest → MastNode
  | split : Nat → Nat → Digest → MastNode
  | loop : Nat → Digest → MastNode
  | call : CallNode → MastNode
  | dyn : MastNode
  | external : Digest → MastNode
deriving DecidableEq, Repr

/-- `MerkleTreeNode::digest` for `MastNode` (`mast/mod.rs` lines 160-172):
dispatch on the variant, returning the stored (or, for blocks and `Dyn`,
the computed) digest. -/
def MastNode.digest : MastNode → Digest
  | .block ops => Digest.blockHash ops
  | .join _ _ d => d
  | .split _ _ d => d
  | .loop _ d => d
  | .call c => c.digest
  | .dyn => Digest.dynDigest
  | .external d => d

/-- Lookup in an association list, standing in for `BTreeMap::get`.  The
forest only ever inserts a key that is absent, so the keys are unique and
the association-list lookup agrees with the map lookup. -/
def assocLookup : List (Digest × Nat) → Digest → Option Nat
  | [], _ => none
  | (d, i) :: rest, key => if d = key then some i else assocLookup rest key

/-- `MastForest` (`mast/mod.rs`): the node store and the digest → id
deduplication index.  `entrypoint` and `kernel` play no role in any
property below and are omitted. -/
structure MastForest where
  nodes : List MastNode
  node_id_by_hash : List (Digest × Nat)
deriving DecidableEq, Repr

/-- `MastForest::new` — the empty forest. -/
def MastForest.new : MastForest := ⟨[], []⟩

/-- `MastForest::add_node` (`mast/mod.rs` lines 66-80): look the digest up
in the dedup index; if present return the previously assigned id, else
assign id `nodes.len()`, record it in the index, and push the node. -/
def MastForest.add_node (f : MastForest) (node : MastNode) : MastForest × Nat :=
  match assocLookup f.node_id_by_hash node.digest with
  | some node_id => (f, node_id)
  | none =>
      let new_node_id := f.nodes.length
      (⟨f.nodes ++ [node], (node.digest, new_node_id) :: f.node_id_by_hash⟩, new_node_id)

/-- `MastForest::get_node_by_id` (`mast/mod.rs` lines 95-97); the Rust
indexing panics out of range, embedded as `Option`. -/
def MastForest.get_node_by_id (f : MastForest) (node_id : Nat) : Option MastNode :=
  f.nodes[node_id]?

/-- `MastForest::get_node_id_by_digest` (`mast/mod.rs` lines 99-101). -/
def MastForest.get_node_id_by_digest (f : MastForest) (digest : Digest) : Option Nat :=
  assocLookup f.node_id_by_hash digest

/-- Insert a whole list of nodes in order, keeping only the forest. -/
def MastForest.addAll (f : MastForest) : List MastNode → MastForest
  | [] => f
  | n :: rest => ((f.add_node n).1).addAll rest

-- Basic lemmas about `add_node`

theorem add_node_lookup_self (f : MastForest) (n : MastNode) :
    assocLookup ((f.add_node n).1).node_id_by_hash n.digest = some ((f.add_node n).2) := by
  unfold MastForest.add_node
  cases h : assocLookup f.node_id_by_hash n.digest with
  | some i => simp [h]
  | none => simp [h, assocLookup]

theorem add_node_lookup_preserved (f : MastForest) (m : MastNode) (d : Digest) (i : Nat)
    (h : assocLookup f.node_id_by_hash d = some i) :
    assocLookup ((f.add_node m).1).node_id_by_hash d = some i := by
  unfold MastForest.add_node
  cases hm : assocLookup f.node_id_by_hash m.digest with
  | some j => simpa using h
  | none =>
      simp only [assocLookup]
      by_cases hd : m.digest = d
      · subst hd; rw [hm] at h; cases h
      · simpa [hd] using h

theorem addAll_lookup_preserved (ns : List MastNode) (f : MastForest) (d : Digest) (i : Nat)
    (h : assocLookup f.node_id_by_hash d = some i) :
    assocLookup (f.addAll ns).node_id_by_hash d = some i := by
  induction ns generalizing f with
  | nil => simpa [MastForest.addAll] using h
  | cons m rest ih =>
      simp only [MastForest.addAll]
      exact ih _ (add_node_lookup_preserved f m d i h)

theorem add_node_nodes_stable (f : MastForest) (m : MastNode) (i : Nat) (node : MastNode)
    (h : f.nodes[i]? = some node) : ((f.add_node m).1).nodes[i]? = some node := by
  unfold MastForest.add_node
  cases hm : assocLookup f.node_id_by_hash m.digest with
  | some j => simpa using h
  | none =>
      have hi : i < f.nodes.length := by
        by_contra hge
        rw [List.getElem?_eq_none (Nat.le_of_not_lt hge)] at h
        cases h
      simpa [List.getElem?_append, hi] using h

theorem addAll_nodes_stable (ns : List MastNode) (f : MastForest) (i : Nat) (node : MastNode)
    (h : f.nodes[i]? = some node) : (f.addAll ns).nodes[i]? = some node := by
  induction ns generalizing f with
  | nil => simpa [MastForest.addAll] using h
  | cons m rest ih =>
      simp only [MastForest.addAll]
      exact ih _ (add_node_nodes_stable f m i node h)

theorem add_node_dedup_hit (f : MastForest) (n : MastNode) (i : Nat)
    (h : assocLookup f.node_id_by_hash n.digest = some i) :
    f.add_node n = (f, i) := by
  unfold MastForest.add_node
  rw [h]

/-- C1: starting from any forest, once a node `n` has been inserted
(receiving id `i`), inserting a structurally equal node again — after any
further sequence of insertions — returns the same id `i`, and leaves the
node count (indeed the whole forest) unchanged. -/
theorem add_node_deduplicates (f : MastForest) (n : MastNode) (ns : List MastNode)
    (i : Nat) (h : (f.add_node n).2 = i) :
    ((((f.add_node n).1).addAll ns).add_node n).2 = i ∧
      ((((f.add_node n).1).addAll ns).add_node n).1.nodes.length =
        (((f.add_node n).1).addAll ns).nodes.length := by
  have h1 : assocLookup ((f.add_node n).1).node_id_by_hash n.digest = some i := by
    rw [← h]; exact add_node_lookup_self f n
  have h2 : assocLookup (((f.add_node n).1).addAll ns).node_id_by_hash n.digest = some i :=
    addAll_lookup_preserved ns _ _ _ h1
  have h3 := add_node_dedup_hit _ n i h2
  rw [h3]
  exact ⟨rfl, rfl⟩

/-- Witness for C1 at a concrete input: insert a `Dyn` node into the empty
forest (getting id 0), then a block, then re-insert `Dyn`: the id is again
0 and the node count stays 2. -/
theorem add_node_deduplicates_witness :
    ((((MastForest.new.add_node MastNode.dyn).1).addAll [MastNode.block [7]]).add_node
        MastNode.dyn).2 = 0 ∧
      ((((MastForest.new.add_node MastNode.dyn).1).addAll [MastNode.block [7]]).add_node
          MastNode.dyn).1.nodes.length =
        (((MastForest.new.add_node MastNode.dyn).1).addAll [MastNode.block [7]]).nodes.length :=
  add_node_deduplicates MastForest.new MastNode.dyn [MastNode.block [7]] 0 (by decide)

/-- `MastForestError` (referenced by `call_node.rs`): `NodeIdOverflow`
carries the offending id and the forest's node count. -/
inductive MastForestError where
  | nodeIdOverflow : Nat → Nat → MastForestError
deriving DecidableEq, Repr

/-- `CallNode::new` (`call_node.rs` lines 46-63): fail with
`NodeIdOverflow` when the callee id is out of range, else compute the
digest as `merge_in_domain([callee_digest, RpoDigest::default()],
CALL_DOMAIN)`. -/
def CallNode.new (callee : Nat) (f : MastForest) : Except MastForestError CallNode :=
  if h : f.nodes.length ≤ callee then
    Except.error (MastForestError.nodeIdOverflow callee f.nodes.length)
  else
    Except.ok
      { callee := callee, is_syscall := false,
        digest :=
          Digest.mergeInDomain (f.nodes.get ⟨callee, Nat.lt_of_not_le h⟩).digest
            zeroWord CALL_DOMAIN }

/-- `CallNode::new_syscall` (`call_node.rs` lines 79-99): as
`CallNode::new` but with `SYSCALL_DOMAIN` and the syscall flag set. -/
def CallNode.new_syscall (callee : Nat) (f : MastForest) : Except MastForestError CallNode :=
  if h : f.nodes.length ≤ callee then
    Except.error (MastForestError.nodeIdOverflow callee f.nodes.length)
  else
    Except.ok
      { callee := callee, is_syscall := true,
        digest :=
          Digest.mergeInDomain (f.nodes.get ⟨callee, Nat.lt_of_not_le h⟩).digest
            zeroWord SYSCALL_DOMAIN }

/-- C4: for a valid callee id, `CallNode::new` produces the digest
`merge_in_domain([callee_digest, ZERO_WORD], CALL_DOMAIN)` and
`CallNode::new_syscall` produces
`merge_in_domain([callee_digest, ZERO_WORD], SYSCALL_DOMAIN)`, where
`callee_digest` is the digest of the forest's node at the callee id. -/
theorem call_node_digest (f : MastForest) (callee : Nat) (node : MastNode)
    (h : f.nodes[callee]? = some node) :
    CallNode.new callee f =
        Except.ok ⟨callee, false, Digest.mergeInDomain node.digest zeroWord CALL_DOMAIN⟩ ∧
      CallNode.new_syscall callee f =
        Except.ok ⟨callee, true, Digest.mergeInDomain node.digest zeroWord SYSCALL_DOMAIN⟩ := by
  have hlt : callee < f.nodes.length := by
    by_contra hge
    rw [List.getElem?_eq_none (Nat.le_of_not_lt hge)] at h
    cases h
  have hnode : f.nodes.get ⟨callee, hlt⟩ = node := by
    have := List.getElem?_eq_getElem hlt
    rw [h] at this
    exact (Option.some.injEq _ _ ▸ this.symm)
  constructor
  · unfold CallNode.new
    rw [dif_neg (Nat.not_le.mpr hlt)]
    rw [hnode]
  · unfold CallNode.new_syscall
    rw [dif_neg (Nat.not_le.mpr hlt)]
    rw [hnode]

/-- Witness for C4 at a concrete input: a forest holding one `Dyn` node,
callee id 0. -/
theorem call_node_digest_witness :
    CallNode.new 0 (MastForest.new.add_node MastNode.dyn).1 =
        Except.ok ⟨0, false, Digest.mergeInDomain Digest.dynDigest zeroWord CALL_DOMAIN⟩ ∧
      CallNode.new_syscall 0 (MastForest.new.add_node MastNode.dyn).1 =
        Except.ok ⟨0, true, Digest.mergeInDomain Digest.dynDigest zeroWord SYSCALL_DOMAIN⟩ :=
  call_node_digest (MastForest.new.add_node MastNode.dyn).1 0 MastNode.dyn (by decide)

/-- C8: constructing a Call or SysCall node with a callee id that is not a
valid id of an already-inserted node (id ≥ node count) fails with
`NodeIdOverflow`; with a valid callee id both constructors succeed. -/
theorem call_node_callee_validity (f : MastForest) (callee : Nat) :
    (f.nodes.length ≤ callee →
        CallNode.new callee f =
            Except.error (MastForestError.nodeIdOverflow callee f.nodes.length) ∧
          CallNode.new_syscall callee f =
            Except.error (MastForestError.nodeIdOverflow callee f.nodes.length)) ∧
      (callee < f.nodes.length →
        (∃ c, CallNode.new callee f = Except.ok c) ∧
          ∃ c, CallNode.new_syscall callee f = Except.ok c) := by
  constructor
  · intro hge
    constructor
    · unfold CallNode.new
      rw [dif_pos hge]
    · unfold CallNode.new_syscall
      rw [dif_pos hge]
  · intro hlt
    constructor
    · exact ⟨CallNode.mk callee false
          (Digest.mergeInDomain (f.nodes.get ⟨callee, hlt⟩).digest zeroWord CALL_DOMAIN),
        by unfold CallNode.new; rw [dif_neg (Nat.not_le.mpr hlt)]⟩
    · exact ⟨CallNode.mk callee true
          (Digest.mergeInDomain (f.nodes.get ⟨callee, hlt⟩).digest zeroWord SYSCALL_DOMAIN),
        by unfold CallNode.new_syscall; rw [dif_neg (Nat.not_le.mpr hlt)]⟩

/-- Witness for C8 at concrete inputs: in a one-node forest, callee id 5
overflows and callee id 0 succeeds. -/
theorem call_node_callee_validity_witness :
    (CallNode.new 5 (MastForest.new.add_node MastNode.dyn).1 =
        Except.error (MastForestError.nodeIdOverflow 5 1) ∧
      ∃ c, CallNode.new 0 (MastForest.new.add_node MastNode.dyn).1 = Except.ok c) :=
  ⟨((call_node_callee_validity (MastForest.new.add_node MastNode.dyn).1 5).1
      (by decide)).1,
    ((call_node_callee_validity (MastForest.new.add_node MastNode.dyn).1 0).2
      (by decide)).1⟩

/-- C2 counterexample: the dedup index is keyed on digest alone, not on
(variant tag, digest).  Inserting `Dyn` into the empty forest and then an
`External` node carrying the `Dyn` digest — two nodes with equal digests
but different variant tags — returns the SAME id for both, contradicting
the claim that `add_node` assigns them distinct ids. -/
theorem dedup_by_digest_only_counterexample :
    (((MastForest.new.add_node MastNode.dyn).1).add_node
        (MastNode.external Digest.dynDigest)).2 =
      (MastForest.new.add_node MastNode.dyn).2 ∧
    (MastNode.external Digest.dynDigest).digest = MastNode.dyn.digest ∧
    MastNode.external Digest.dynDigest ≠ MastNode.dyn := by
  decide

/-- C2 (amended): deduplication is by digest alone.  For any forest, after
inserting node `n`, inserting any node `m` with the same digest — whatever
its variant tag — returns the id that `n` received, and leaves the forest
unchanged. -/
theorem dedup_by_digest_only (f : MastForest) (n m : MastNode)
    (h : m.digest = n.digest) :
    (((f.add_node n).1).add_node m).2 = (f.add_node n).2 ∧
      (((f.add_node n).1).add_node m).1 = (f.add_node n).1 := by
  have h1 : assocLookup ((f.add_node n).1).node_id_by_hash m.digest =
      some ((f.add_node n).2) := by
    rw [h]; exact add_node_lookup_self f n
  have h2 := add_node_dedup_hit _ m _ h1
  rw [h2]
  exact ⟨rfl, rfl⟩

/-- Witness for the amended C2 at a concrete input: `Dyn`, then an
`External` node with the `Dyn` digest, into the empty forest. -/
theorem dedup_by_digest_only_witness :
    (((MastForest.new.add_node MastNode.dyn).1).add_node
        (MastNode.external Digest.dynDigest)).2 =
      (MastForest.new.add_node MastNode.dyn).2 :=
  (dedup_by_digest_only MastForest.new MastNode.dyn
    (MastNode.external Digest.dynDigest) (by decide)).1

/-- C3: ids are issued strictly in insertion order and are stable.
(1) A fresh insertion (digest not yet in the index) is assigned id
`nodes.len()` and appends the node at exactly that position — so starting
from the empty forest the i-th newly inserted node gets id i;
(2) a duplicate insertion returns the previously assigned id and leaves
the forest untouched;
(3) once an id is issued, `get_node_by_id` returns the same node after any
later sequence of insertions. -/
theorem ids_monotone_and_stable :
    (∀ (f : MastForest) (n : MastNode),
        assocLookup f.node_id_by_hash n.digest = none →
          (f.add_node n).2 = f.nodes.length ∧ (f.add_node n).1.nodes = f.nodes ++ [n]) ∧
    (∀ (f : MastForest) (n : MastNode) (i : Nat),
        assocLookup f.node_id_by_hash n.digest = some i → f.add_node n = (f, i)) ∧
    (∀ (f : MastForest) (ns : List MastNode) (i : Nat) (node : MastNode),
        f.get_node_by_id i = some node → (f.addAll ns).get_node_by_id i = some node) := by
  refine ⟨?_, ?_, ?_⟩
  · intro f n h
    unfold MastForest.add_node
    rw [h]
    exact ⟨rfl, rfl⟩
  · intro f n i h
    exact add_node_dedup_hit f n i h
  · intro f ns i node h
    exact addAll_nodes_stable ns f i node h

/-- Witness for C3 at concrete inputs: inserting `Dyn` into the empty
forest issues id 0; after also inserting a block, id 0 still resolves to
the `Dyn` node. -/
theorem ids_monotone_and_stable_witness :
    (MastForest.new.add_node MastNode.dyn).2 = MastForest.new.nodes.length ∧
      (((MastForest.new.add_node MastNode.dyn).1).addAll
          [MastNode.block [3]]).get_node_by_id 0 = some MastNode.dyn :=
  ⟨(ids_monotone_and_stable.1 MastForest.new MastNode.dyn (by decide)).1,
    ids_monotone_and_stable.2.2 (MastForest.new.add_node MastNode.dyn).1
      [MastNode.block [3]] 0 MastNode.dyn (by decide)⟩

/-- `Token` (`assembly/src/tokens/mod.rs`): a source token split on `.`
into its parts, with its byte position.  `Token::new` guarantees at least
one part (it splits a non-empty string). -/
structure Token where
  parts : List String
  pos : Nat
deriving DecidableEq, Repr

/-- The discriminating content of a `ParsingError` message
(`assembly/src/errors.rs`): the source builds a formatted `String`; the
embedding keeps the constructor used and its `part_idx` argument. -/
inductive ParsingErrorKind where
  | missingParam : ParsingErrorKind
  | extraParam : ParsingErrorKind
  | invalidParam : Nat → ParsingErrorKind
deriving DecidableEq, Repr

/-- `ParsingError` (`assembly/src/errors.rs` lines 124-128): message,
step (the token position) and offending op (the token text, kept here as
its parts). -/
structure ParsingError where
  kind : ParsingErrorKind
  step : Nat
  op : List String
deriving DecidableEq, Repr

/-- `ParsingError::missing_param` (`errors.rs` lines 185-191). -/
def ParsingError.missing_param (t : Token) : ParsingError :=
  ⟨ParsingErrorKind.missingParam, t.pos, t.parts⟩

/-- `ParsingError::extra_param` (`errors.rs` lines 193-199). -/
def ParsingError.extra_param (t : Token) : ParsingError :=
  ⟨ParsingErrorKind.extraParam, t.pos, t.parts⟩

/-- `ParsingError::invalid_param` (`errors.rs` lines 201-210). -/
def ParsingError.invalid_param (t : Token) (part_idx : Nat) : ParsingError :=
  ⟨ParsingErrorKind.invalidParam part_idx, t.pos, t.parts⟩

/-- Rust `str::parse::<u32>`: an optional leading `+`, then one or more
ASCII digits, value below `2^32`; anything else is an error. -/
def parseU32 (s : String) : Option Nat :=
  let ds := match s.data with
    | '+' :: rest => rest
    | cs => cs
  if ds = [] then none
  else if ds.all (fun c => c.isDigit) then
    let v := ds.foldl (fun a c => a * 10 + (c.toNat - 48)) 0
    if v < 4294967296 then some v else none
  else none

/-- `Token::parse_repeat` (`tokens/mod.rs` lines 168-178): match on the
number of parts — 1 part: missing parameter; 2 parts: parse part 1 as a
`u32`; more: extra parameter.  The 0-parts arm is `unreachable!()` in the
source (`Token::new` always yields at least one part); it is mapped to the
missing-parameter error and never relied upon. -/
def Token.parse_repeat (t : Token) : Except ParsingError Nat :=
  match t.parts.length with
  | 0 => Except.error (ParsingError.missing_param t)
  | 1 => Except.error (ParsingError.missing_param t)
  | 2 =>
      match parseU32 (t.parts.getD 1 "") with
      | some n => Except.ok n
      | none => Except.error (ParsingError.invalid_param t 1)
  | _ + 3 => Except.error (ParsingError.extra_param t)

/-- C9 counterexample: `parse_repeat` does NOT require `N ≥ 1` — the
token `repeat.0` parses successfully to the count 0 instead of returning
a parsing error. -/
theorem parse_repeat_accepts_zero_counterexample :
    Token.parse_repeat ⟨["repeat", "0"], 0⟩ = Except.ok 0 := rfl

/-- C9 (amended): `parse_repeat` returns `Ok(N)` for every count
parameter that parses as a `u32` — including `N = 0` — and returns a
parsing error exactly when the parameter is missing, when extra
parameters are present, or when the parameter is not a valid `u32`; the
spec's `N ≥ 1` requirement is not enforced here. -/
theorem parse_repeat_param_handling :
    (∀ (t : Token) (s : String) (n : Nat), t.parts = ["repeat", s] →
        parseU32 s = some n → t.parse_repeat = Except.ok n) ∧
      (∀ (t : Token), t.parts = ["repeat"] →
        t.parse_repeat = Except.error (ParsingError.missing_param t)) ∧
      (∀ (t : Token) (s : String), t.parts = ["repeat", s] →
        parseU32 s = none →
        t.parse_repeat = Except.error (ParsingError.invalid_param t 1)) ∧
      (∀ (t : Token), t.parts.getD 0 "" = "repeat" → 3 ≤ t.parts.length →
        t.parse_repeat = Except.error (ParsingError.extra_param t)) := by
  refine ⟨?_, ?_, ?_, ?_⟩
  · intro t s n hp hu
    unfold Token.parse_repeat
    rw [hp]
    show (match parseU32 s with
      | some n => Except.ok n
      | none => Except.error (ParsingError.invalid_param t 1)) = Except.ok n
    rw [hu]
  · intro t hp
    unfold Token.parse_repeat
    rw [hp]
    rfl
  · intro t s hp hu
    unfold Token.parse_repeat
    rw [hp]
    show (match parseU32 s with
      | some n => Except.ok n
      | none => Except.error (ParsingError.invalid_param t 1)) =
        Except.error (ParsingError.invalid_param t 1)
    rw [hu]
  · intro t _ hlen
    unfold Token.parse_repeat
    obtain ⟨k, hk⟩ : ∃ k, t.parts.length = k + 3 :=
      ⟨t.parts.length - 3, by omega⟩
    rw [hk]

/-- Witness for the amended C9 at concrete inputs: `repeat.7` parses to
7, a bare `repeat` reports a missing parameter. -/
theorem parse_repeat_param_handling_witness :
    Token.parse_repeat ⟨["repeat", "7"], 4⟩ = Except.ok 7 ∧
      Token.parse_repeat ⟨["repeat"], 9⟩ =
        Except.error (ParsingError.missing_param ⟨["repeat"], 9⟩) :=
  ⟨parse_repeat_param_handling.1 ⟨["repeat", "7"], 4⟩ "7" 7 rfl (by decide),
    parse_repeat_param_handling.2.1 ⟨["repeat"], 9⟩ rfl⟩

/-- `LibraryPath` (`assembly/src/library/path.rs`, not among the
sources).  Modelled from the spec: a path is a non-empty sequence of
`::`-separated components, the first being the namespace; kept as the
component list. -/
abbrev LibraryPath := List String

/-- `LibraryPath::from(LibraryNamespace::Kernel)`: the reserved kernel
namespace path `#sys` (spec §6.1). -/
def kernelPath : LibraryPath := ["#sys"]

/-- `FullyQualifiedProcedureName` (`assembly/src/ast`, not among the
sources).  Modelled from the spec: a `(LibraryPath, ProcedureName)`
pair. -/
structure FullyQualifiedProcedureName where
  module : LibraryPath
  name : String
deriving DecidableEq, Repr

/-- The `MastForest` view used by the library layer.  Modelled from the
spec: `MastForest::procedure_roots` / `num_procedures` are not among the
sources; per spec §3.5 and §6.2 the forest carries an ordered list of
procedure-root node ids next to its nodes, and `num_procedures` is their
count.  Nodes are exactly the `MastNode`s above. -/
structure LMastForest where
  nodes : List MastNode
  roots : List Nat
deriving DecidableEq, Repr

/-- `MastForest::num_procedures`: the number of procedure roots. -/
def LMastForest.num_procedures (f : LMastForest) : Nat := f.roots.length

/-- `self.mast_forest[node_id].digest()`: the digest of the node at the
given id.  The Rust indexing panics out of range
(`library/mod.rs` line 181); the panic is exposed as `none`. -/
def LMastForest.digestAt (f : LMastForest) (node_id : Nat) : Option Digest :=
  (f.nodes[node_id]?).map MastNode.digest

/-- `procedure_roots()[proc_index]` followed by the digest of the node at
that root (`library/mod.rs` lines 180-181).  Both indexings panic out of
range in the source; the panic is exposed as `none`. -/
def LMastForest.rootDigest (f : LMastForest) (proc_index : Nat) : Option Digest :=
  (f.roots[proc_index]?).bind f.digestAt

/-- `KernelError` (`vm_core`, not among the sources).  Modelled from the
spec: `Kernel::new` enforces the 256-procedure limit. -/
inductive KernelError where
  | tooManyProcedures : Nat → KernelError
deriving DecidableEq, Repr

/-- `Kernel` (`vm_core`, not among the sources).  Modelled from the spec:
the ordered vector of the allowed syscall-target digests. -/
structure Kernel where
  procs : List Digest
deriving DecidableEq, Repr

/-- `Kernel::MAX_NUM_PROCEDURES` (i.e. 256). -/
def Kernel.MAX_NUM_PROCEDURES : Nat := 256

/-- `Kernel::new` (`vm_core`, not among the sources).  Modelled from the
spec: the resulting kernel is the ordered vector of the given digests,
with the count limited to 256. -/
def Kernel.new (proc_digests : List Digest) : Except KernelError Kernel :=
  if Kernel.MAX_NUM_PROCEDURES < proc_digests.length then
    Except.error (KernelError.tooManyProcedures proc_digests.length)
  else
    Except.ok ⟨proc_digests⟩

/-- `CompiledLibraryError` (`assembly/src/library/error.rs` and the
errors referenced from `library/mod.rs`): mismatched export/root counts,
a non-kernel export in a kernel library, or a kernel construction
error. -/
inductive CompiledLibraryError where
  | invalidExports : Nat → Nat → CompiledLibraryError
  | invalidKernelExport : FullyQualifiedProcedureName → CompiledLibraryError
  | kernel : KernelError → CompiledLibraryError
deriving DecidableEq, Repr

/-- `CompiledLibrary` (`library/mod.rs` lines 31-35): a MAST forest plus
one fully qualified name per procedure root. -/
structure CompiledLibrary where
  mast_forest : LMastForest
  exports : List FullyQualifiedProcedureName
deriving DecidableEq, Repr

/-- `CompiledLibrary::new` (`library/mod.rs` lines 40-55): reject a
mismatch between the number of procedure roots and the number of
exports. -/
def CompiledLibrary.new (mast_forest : LMastForest)
    (exports : List FullyQualifiedProcedureName) :
    Except CompiledLibraryError CompiledLibrary :=
  if mast_forest.num_procedures ≠ exports.length then
    Except.error (CompiledLibraryError.invalidExports exports.length mast_forest.num_procedures)
  else
    Except.ok ⟨mast_forest, exports⟩

/-- `ProcedureInfo` (`library/mod.rs` lines 297-301). -/
structure ProcedureInfo where
  name : String
  digest : Digest
deriving DecidableEq, Repr

/-- `ModuleInfo` (`library/mod.rs` lines 232-236). -/
structure ModuleInfo where
  path : LibraryPath
  procedure_infos : List ProcedureInfo
deriving DecidableEq, Repr

/-- `KernelLibrary` (`library/mod.rs` lines 151-155). -/
structure KernelLibrary where
  kernel : Kernel
  kernel_info : ModuleInfo
  library : CompiledLibrary
deriving DecidableEq, Repr

/-- The export loop of `TryFrom<CompiledLibrary> for KernelLibrary`
(`library/mod.rs` lines 172-188): walk the exports in order with their
index; fail with `InvalidKernelExport` on the first export whose module
path is not `#sys`; otherwise accumulate, in export order, the
`ProcedureInfo`s and the digests of the forest nodes at
`procedure_roots()[proc_index]`.  The source's
`procedure_roots()[proc_index]` and the forest indexing at the obtained
root id both panic out of range; the whole result is therefore wrapped in
`Option`, with `none` marking that panic. -/
def kernelExportLoop (f : LMastForest) (proc_index : Nat) :
    List FullyQualifiedProcedureName →
    Option (Except CompiledLibraryError (List ProcedureInfo × List Digest))
  | [] => some (Except.ok ([], []))
  | proc_path :: rest =>
      if proc_path.module ≠ kernelPath then
        some (Except.error (CompiledLibraryError.invalidKernelExport proc_path))
      else
        match f.roots[proc_index]? with
        | none => none
        | some proc_node_id =>
            match f.nodes[proc_node_id]? with
            | none => none
            | some node =>
                match kernelExportLoop f (proc_index + 1) rest with
                | none => none
                | some (Except.error e) => some (Except.error e)
                | some (Except.ok (kernel_procs, proc_digests)) =>
                    some (Except.ok (⟨proc_path.name, node.digest⟩ :: kernel_procs,
                      node.digest :: proc_digests))

/-- `TryFrom<CompiledLibrary> for KernelLibrary` (`library/mod.rs` lines
164-199): run the export loop, build the `Kernel` from the collected
digests, and package the kernel module info.  `none` propagates the
out-of-range indexing panic of the export loop. -/
def KernelLibrary.tryFrom (library : CompiledLibrary) :
    Option (Except CompiledLibraryError KernelLibrary) :=
  match kernelExportLoop library.mast_forest 0 library.exports with
  | none => none
  | some (Except.error e) => some (Except.error e)
  | some (Except.ok (kernel_procs, proc_digests)) =>
      match Kernel.new proc_digests with
      | Except.error e => some (Except.error (CompiledLibraryError.kernel e))
      | Except.ok kernel =>
          some (Except.ok ⟨kernel, ⟨kernelPath, kernel_procs⟩, library⟩)

/-- C5: `CompiledLibrary::new` establishes `len(exports) ==
num_procedure_roots(forest)` — every library it returns satisfies the
invariant (and a `CompiledLibrary` is immutable, so the invariant is
maintained) — and construction with mismatched lengths fails with
`InvalidExports` instead of producing a library. -/
theorem compiled_library_export_invariant :
    (∀ (f : LMastForest) (exports : List FullyQualifiedProcedureName)
        (lib : CompiledLibrary),
        CompiledLibrary.new f exports = Except.ok lib →
          lib.exports.length = lib.mast_forest.num_procedures) ∧
      ∀ (f : LMastForest) (exports : List FullyQualifiedProcedureName),
        f.num_procedures ≠ exports.length →
          CompiledLibrary.new f exports =
            Except.error
              (CompiledLibraryError.invalidExports exports.length f.num_procedures) := by
  constructor
  · intro f exports lib h
    unfold CompiledLibrary.new at h
    by_cases hc : f.num_procedures ≠ exports.length
    · rw [if_pos hc] at h
      cases h
    · rw [if_neg hc] at h
      cases h
      exact (not_ne_iff.mp hc).symm
  · intro f exports h
    unfold CompiledLibrary.new
    rw [if_pos h]

/-- Witness for C5 at concrete inputs: a one-root forest with one export
constructs successfully and satisfies the invariant; the same forest with
an empty export list is rejected. -/
theorem compiled_library_export_invariant_witness :
    (⟨⟨[MastNode.dyn], [0]⟩,
        [⟨["#sys"], "f"⟩]⟩ : CompiledLibrary).exports.length =
        (⟨⟨[MastNode.dyn], [0]⟩,
          [⟨["#sys"], "f"⟩]⟩ : CompiledLibrary).mast_forest.num_procedures ∧
      CompiledLibrary.new ⟨[MastNode.dyn], [0]⟩ [] =
        Except.error (CompiledLibraryError.invalidExports 0 1) :=
  ⟨compiled_library_export_invariant.1 ⟨[MastNode.dyn], [0]⟩ [⟨["#sys"], "f"⟩]
      ⟨⟨[MastNode.dyn], [0]⟩, [⟨["#sys"], "f"⟩]⟩ rfl,
    compiled_library_export_invariant.2 ⟨[MastNode.dyn], [0]⟩ [] (by decide)⟩

/-- The digests of a library's exported procedures in export order: index
`i` resolves through `procedure_roots()[i]` to the forest node whose
digest is taken.  Out-of-range lookups produce nothing; on aligned
libraries (see `CompiledLibrary.rootsAligned`) every index yields its
digest. -/
def exportDigests (lib : CompiledLibrary) : List Digest :=
  (List.range' 0 lib.exports.length).filterMap lib.mast_forest.rootDigest

/-- The domain on which `TryFrom` runs to completion instead of panicking
(spec §3.5: index `i` in the exports corresponds to the `i`-th procedure
root; §3.1: every root refers to a node of the forest): every export
index has a procedure root that is a valid node id. -/
abbrev CompiledLibrary.rootsAligned (lib : CompiledLibrary) : Prop :=
  ∀ j, j < lib.exports.length → (lib.mast_forest.rootDigest j).isSome = true

theorem kernelExportLoop_cons_step (f : LMastForest)
    (p : FullyQualifiedProcedureName) (rest : List FullyQualifiedProcedureName)
    (i : Nat) (d : Digest) (hp : p.module = kernelPath)
    (hd : f.rootDigest i = some d) :
    kernelExportLoop f i (p :: rest) =
      match kernelExportLoop f (i + 1) rest with
      | none => none
      | some (Except.error e) => some (Except.error e)
      | some (Except.ok (kernel_procs, proc_digests)) =>
          some (Except.ok ((⟨p.name, d⟩ : ProcedureInfo) :: kernel_procs, d :: proc_digests)) := by
  unfold LMastForest.rootDigest LMastForest.digestAt at hd
  cases hroot : f.roots[i]? with
  | none => rw [hroot] at hd; cases hd
  | some r =>
      rw [hroot] at hd
      cases hnode : f.nodes[r]? with
      | none =>
          rw [Option.some_bind, hnode] at hd
          cases hd
      | some node =>
          rw [Option.some_bind, hnode] at hd
          have hnd : node.digest = d := by simpa using hd
          show (if p.module ≠ kernelPath then
              some (Except.error (CompiledLibraryError.invalidKernelExport p))
            else
              match f.roots[i]? with
              | none => none
              | some proc_node_id =>
                  match f.nodes[proc_node_id]? with
                  | none => none
                  | some node =>
                      match kernelExportLoop f (i + 1) rest with
                      | none => none
                      | some (Except.error e) => some (Except.error e)
                      | some (Except.ok (kernel_procs, proc_digests)) =>
                          some (Except.ok ((⟨p.name, node.digest⟩ : ProcedureInfo) :: kernel_procs,
                            node.digest :: proc_digests))) =
            match kernelExportLoop f (i + 1) rest with
            | none => none
            | some (Except.error e) => some (Except.error e)
            | some (Except.ok (kernel_procs, proc_digests)) =>
                some (Except.ok ((⟨p.name, d⟩ : ProcedureInfo) :: kernel_procs, d :: proc_digests))
          rw [if_neg (not_ne_iff.mpr hp), hroot]
          show (match f.nodes[r]? with
            | none => none
            | some node =>
                match kernelExportLoop f (i + 1) rest with
                | none => none
                | some (Except.error e) => some (Except.error e)
                | some (Except.ok (kernel_procs, proc_digests)) =>
                    some (Except.ok ((⟨p.name, node.digest⟩ : ProcedureInfo) :: kernel_procs,
                      node.digest :: proc_digests))) =
            match kernelExportLoop f (i + 1) rest with
            | none => none
            | some (Except.error e) => some (Except.error e)
            | some (Except.ok (kernel_procs, proc_digests)) =>
                some (Except.ok ((⟨p.name, d⟩ : ProcedureInfo) :: kernel_procs, d :: proc_digests))
          rw [hnode]
          show (match kernelExportLoop f (i + 1) rest with
            | none => none
            | some (Except.error e) => some (Except.error e)
            | some (Except.ok (kernel_procs, proc_digests)) =>
                some (Except.ok ((⟨p.name, node.digest⟩ : ProcedureInfo) :: kernel_procs,
                  node.digest :: proc_digests))) =
            match kernelExportLoop f (i + 1) rest with
            | none => none
            | some (Except.error e) => some (Except.error e)
            | some (Except.ok (kernel_procs, proc_digests)) =>
                some (Except.ok ((⟨p.name, d⟩ : ProcedureInfo) :: kernel_procs, d :: proc_digests))
          rw [hnd]

theorem rootDigest_filterMap_length (f : LMastForest) :
    ∀ (n i : Nat), (∀ j, j < n → (f.rootDigest (i + j)).isSome = true) →
      ((List.range' i n).filterMap f.rootDigest).length = n := by
  intro n
  induction n with
  | zero => intro i _; rfl
  | succ m ih =>
      intro i halign
      have hsome := halign 0 (Nat.succ_pos m)
      rw [Nat.add_zero] at hsome
      obtain ⟨d, hd⟩ := Option.isSome_iff_exists.mp hsome
      rw [List.range'_succ, List.filterMap_cons, hd]
      show (d :: (List.range' (i + 1) m).filterMap f.rootDigest).length = m + 1
      rw [List.length_cons]
      rw [ih (i + 1) (fun j hj => by
        have h2 := halign (j + 1) (Nat.succ_lt_succ hj)
        rwa [show i + (j + 1) = i + 1 + j from by omega] at h2)]

theorem kernelExportLoop_ok (f : LMastForest) (exps : List FullyQualifiedProcedureName) :
    ∀ (i : Nat), (∀ p ∈ exps, p.module = kernelPath) →
      (∀ j, j < exps.length → (f.rootDigest (i + j)).isSome = true) →
      kernelExportLoop f i exps =
        some (Except.ok
          (List.zipWith (fun p d => (⟨p.name, d⟩ : ProcedureInfo)) exps
            ((List.range' i exps.length).filterMap f.rootDigest),
          (List.range' i exps.length).filterMap f.rootDigest)) := by
  induction exps with
  | nil => intro i _ _; rfl
  | cons p rest ih =>
      intro i hall halign
      have hp : p.module = kernelPath := hall p (List.mem_cons_self p rest)
      have hsome := halign 0 (Nat.succ_pos rest.length)
      rw [Nat.add_zero] at hsome
      obtain ⟨d, hd⟩ := Option.isSome_iff_exists.mp hsome
      rw [kernelExportLoop_cons_step f p rest i d hp hd]
      rw [ih (i + 1) (fun q hq => hall q (List.mem_cons_of_mem p hq))
        (fun j hj => by
          have h2 := halign (j + 1) (Nat.succ_lt_succ hj)
          rwa [show i + (j + 1) = i + 1 + j from by omega] at h2)]
      rw [List.length_cons, List.range'_succ, List.filterMap_cons, hd]
      rfl

theorem kernelExportLoop_first_err (f : LMastForest) (exps : List FullyQualifiedProcedureName) :
    ∀ (i k : Nat) (p : FullyQualifiedProcedureName),
      exps[k]? = some p → p.module ≠ kernelPath →
      (∀ j q, j < k → exps[j]? = some q → q.module = kernelPath) →
      (∀ j, j < k → (f.rootDigest (i + j)).isSome = true) →
      kernelExportLoop f i exps =
        some (Except.error (CompiledLibraryError.invalidKernelExport p)) := by
  induction exps with
  | nil =>
      intro i k p hk _ _ _
      rw [List.getElem?_nil] at hk
      cases hk
  | cons q rest ih =>
      intro i k p hk hp hprev halign
      cases k with
      | zero =>
          rw [List.getElem?_cons_zero] at hk
          cases hk
          unfold kernelExportLoop
          rw [if_pos hp]
      | succ k =>
          have hq : q.module = kernelPath :=
            hprev 0 q (Nat.succ_pos k) List.getElem?_cons_zero
          have hsome := halign 0 (Nat.succ_pos k)
          rw [Nat.add_zero] at hsome
          obtain ⟨d, hd⟩ := Option.isSome_iff_exists.mp hsome
          rw [kernelExportLoop_cons_step f q rest i d hq hd]
          rw [List.getElem?_cons_succ] at hk
          rw [ih (i + 1) k p hk hp
            (fun j r hj hr =>
              hprev (j + 1) r (Nat.succ_lt_succ hj) (by simpa using hr))
            (fun j hj => by
              have h2 := halign (j + 1) (Nat.succ_lt_succ hj)
              rwa [show i + (j + 1) = i + 1 + j from by omega] at h2)]

theorem tryFrom_after_loop (lib : CompiledLibrary) (procs : List ProcedureInfo)
    (digs : List Digest)
    (h : kernelExportLoop lib.mast_forest 0 lib.exports =
      some (Except.ok (procs, digs))) :
    KernelLibrary.tryFrom lib =
      match Kernel.new digs with
      | Except.error e => some (Except.error (CompiledLibraryError.kernel e))
      | Except.ok kernel => some (Except.ok ⟨kernel, ⟨kernelPath, procs⟩, lib⟩) := by
  unfold KernelLibrary.tryFrom
  rw [h]

/-- C6: on libraries whose exports line up with valid procedure roots —
the invariant every really-constructed `CompiledLibrary` satisfies, off
which the source indexing panics — converting to a `KernelLibrary` fails
with `InvalidKernelExport` at the first export whose module path is not
the reserved kernel namespace `#sys`; when every export's module path is
`#sys` and there are at most 256 exports, it succeeds and the resulting
`Kernel` is the vector of the exported procedures' digests in export
order; with more than 256 exports the kernel size check fails. -/
theorem kernel_library_construction :
    (∀ (lib : CompiledLibrary) (k : Nat) (p : FullyQualifiedProcedureName),
        lib.exports[k]? = some p → p.module ≠ kernelPath →
        (∀ j q, j < k → lib.exports[j]? = some q → q.module = kernelPath) →
        (∀ j, j < k → (lib.mast_forest.rootDigest j).isSome = true) →
        KernelLibrary.tryFrom lib =
          some (Except.error (CompiledLibraryError.invalidKernelExport p))) ∧
      (∀ lib : CompiledLibrary, lib.rootsAligned →
        (∀ p ∈ lib.exports, p.module = kernelPath) →
        lib.exports.length ≤ 256 →
        ∃ kl, KernelLibrary.tryFrom lib = some (Except.ok kl) ∧
          kl.kernel.procs = exportDigests lib ∧ kl.library = lib) ∧
      ∀ lib : CompiledLibrary, lib.rootsAligned →
        (∀ p ∈ lib.exports, p.module = kernelPath) →
        256 < lib.exports.length →
        KernelLibrary.tryFrom lib =
          some (Except.error
            (CompiledLibraryError.kernel
              (KernelError.tooManyProcedures lib.exports.length))) := by
  refine ⟨?_, ?_, ?_⟩
  · intro lib k p hk hp hprev halign
    unfold KernelLibrary.tryFrom
    rw [kernelExportLoop_first_err lib.mast_forest lib.exports 0 k p hk hp hprev
      (fun j hj => by rw [Nat.zero_add]; exact halign j hj)]
  · intro lib halign hall hle
    rw [tryFrom_after_loop lib _ _ (kernelExportLoop_ok lib.mast_forest lib.exports 0 hall
      (fun j hj => by rw [Nat.zero_add]; exact halign j hj))]
    have hlen : ((List.range' 0 lib.exports.length).filterMap
        lib.mast_forest.rootDigest).length = lib.exports.length :=
      rootDigest_filterMap_length lib.mast_forest lib.exports.length 0
        (fun j hj => by rw [Nat.zero_add]; exact halign j hj)
    have hk : Kernel.new ((List.range' 0 lib.exports.length).filterMap
        lib.mast_forest.rootDigest) =
        Except.ok ⟨(List.range' 0 lib.exports.length).filterMap
          lib.mast_forest.rootDigest⟩ := by
      unfold Kernel.new Kernel.MAX_NUM_PROCEDURES
      rw [hlen]
      rw [if_neg (Nat.not_lt.mpr hle)]
    rw [hk]
    exact ⟨_, rfl, rfl, rfl⟩
  · intro lib halign hall hgt
    rw [tryFrom_after_loop lib _ _ (kernelExportLoop_ok lib.mast_forest lib.exports 0 hall
      (fun j hj => by rw [Nat.zero_add]; exact halign j hj))]
    have hlen : ((List.range' 0 lib.exports.length).filterMap
        lib.mast_forest.rootDigest).length = lib.exports.length :=
      rootDigest_filterMap_length lib.mast_forest lib.exports.length 0
        (fun j hj => by rw [Nat.zero_add]; exact halign j hj)
    have hk : Kernel.new ((List.range' 0 lib.exports.length).filterMap
        lib.mast_forest.rootDigest) =
        Except.error (KernelError.tooManyProcedures lib.exports.length) := by
      unfold Kernel.new Kernel.MAX_NUM_PROCEDURES
      rw [hlen]
      rw [if_pos hgt]
    rw [hk]

/-- Witness for C6 at concrete inputs: a library exporting `foo::f` is
rejected with `InvalidKernelExport`, while one exporting `#sys::f`
converts successfully with the kernel holding that procedure's digest. -/
theorem kernel_library_construction_witness :
    KernelLibrary.tryFrom ⟨⟨[MastNode.dyn], [0]⟩, [⟨["foo"], "f"⟩]⟩ =
        some (Except.error (CompiledLibraryError.invalidKernelExport ⟨["foo"], "f"⟩)) ∧
      ∃ kl, KernelLibrary.tryFrom ⟨⟨[MastNode.dyn], [0]⟩, [⟨["#sys"], "f"⟩]⟩ =
          some (Except.ok kl) ∧
        kl.kernel.procs = exportDigests ⟨⟨[MastNode.dyn], [0]⟩, [⟨["#sys"], "f"⟩]⟩ ∧
        kl.library = ⟨⟨[MastNode.dyn], [0]⟩, [⟨["#sys"], "f"⟩]⟩ :=
  ⟨kernel_library_construction.1 ⟨⟨[MastNode.dyn], [0]⟩, [⟨["foo"], "f"⟩]⟩ 0
      ⟨["foo"], "f"⟩ rfl (by decide)
      (fun j q hj _ => absurd hj (Nat.not_lt_zero j))
      (fun j hj => absurd hj (Nat.not_lt_zero j)),
    kernel_library_construction.2.1 ⟨⟨[MastNode.dyn], [0]⟩, [⟨["#sys"], "f"⟩]⟩
      (by decide) (by decide) (by decide)⟩

/-- A serialized stream item.  Modelled from the spec: the byte-level
(de)serializers (`MastForest::write_into` / `read_from` and the
`FullyQualifiedProcedureName` serde, both referenced from
`library/mod.rs`) live in modules not among the sources; the wire grammar
of spec §6.2 is followed, with the scalar byte encodings (uvarint / u32 /
u8 counts, ids and tags) abstracted as typed stream items.
`AstSerdeOptions` only controls source-span information, which this
embedding omits. -/
inductive WItem where
  | nat : Nat → WItem
  | dig : Digest → WItem
  | str : String → WItem
deriving DecidableEq, Repr

/-- `DeserializationError` (`vm_core::utils`, not among the sources):
truncated input, a malformed entry, or an invalid value.  The source
carries a formatted message in `InvalidValue`; the embedding keeps the
error that generated it. -/
inductive DeserializationError where
  | unexpectedEOF : DeserializationError
  | invalidEntry : DeserializationError
  | invalidValue : CompiledLibraryError → DeserializationError
deriving DecidableEq, Repr

/-- Node serialization per spec §6.2: `u8(tag) || payload`. -/
def serializeNode : MastNode → List WItem
  | .block ops => WItem.nat 0 :: WItem.nat ops.length :: ops.map WItem.nat
  | .join left right _ => [WItem.nat 1, WItem.nat left, WItem.nat right]
  | .split then_ else_ _ => [WItem.nat 2, WItem.nat then_, WItem.nat else_]
  | .loop body _ => [WItem.nat 3, WItem.nat body]
  | .call c => [WItem.nat 4, WItem.nat c.callee, WItem.nat (if c.is_syscall then 1 else 0)]
  | .dyn => [WItem.nat 5]
  | .external d => [WItem.nat 6, WItem.dig d]

/-- Serialize a node sequence back to back. -/
def serializeNodes : List MastNode → List WItem
  | [] => []
  | n :: rest => serializeNode n ++ serializeNodes rest

/-- `MastForest` serialization per spec §6.2:
`uvarint(num_nodes) || node* || uvarint(num_roots) || root_id*`. -/
def LMastForest.write_into (f : LMastForest) : List WItem :=
  WItem.nat f.nodes.length ::
    (serializeNodes f.nodes ++ WItem.nat f.roots.length :: f.roots.map WItem.nat)

/-- Export serialization per spec §6.2: `fqn_module_path || proc_name`. -/
def serializeFQN (p : FullyQualifiedProcedureName) : List WItem :=
  WItem.nat p.module.length :: (p.module.map WItem.str ++ [WItem.str p.name])

/-- Serialize the export list back to back. -/
def serializeExports : List FullyQualifiedProcedureName → List WItem
  | [] => []
  | p :: rest => serializeFQN p ++ serializeExports rest

/-- `CompiledLibrary::write_into_with_options` (`library/mod.rs` lines
108-120): the forest, then the export count, then each export. -/
def CompiledLibrary.write_into_with_options (lib : CompiledLibrary) : List WItem :=
  lib.mast_forest.write_into ++
    WItem.nat lib.exports.length :: serializeExports lib.exports

/-- `KernelLibrary::write_into_with_options` (`library/mod.rs` lines
204-212): exactly the underlying library's serialization (the kernel is
recomputed on read). -/
def KernelLibrary.write_into_with_options (kl : KernelLibrary) : List WItem :=
  kl.library.write_into_with_options

/-- Read `k` consecutive numeric items. -/
def readNats : Nat → List WItem → Except DeserializationError (List Nat × List WItem)
  | 0, items => Except.ok ([], items)
  | Nat.succ k, WItem.nat n :: items =>
      match readNats k items with
      | Except.error e => Except.error e
      | Except.ok (ns, rest) => Except.ok (n :: ns, rest)
  | Nat.succ _, [] => Except.error DeserializationError.unexpectedEOF
  | Nat.succ _, _ => Except.error DeserializationError.invalidEntry

/-- Read `k` consecutive string items. -/
def readStrs : Nat → List WItem → Except DeserializationError (List String × List WItem)
  | 0, items => Except.ok ([], items)
  | Nat.succ k, WItem.str s :: items =>
      match readStrs k items with
      | Except.error e => Except.error e
      | Except.ok (ss, rest) => Except.ok (s :: ss, rest)
  | Nat.succ _, [] => Except.error DeserializationError.unexpectedEOF
  | Nat.succ _, _ => Except.error DeserializationError.invalidEntry

/-- Read one node given the nodes read so far (`prev`).  Per the spec,
deserialization rebuilds digests by re-hashing: a control node's digest is
recomputed from its children's digests (children must already have been
read), with the call digest computed exactly as in `CallNode::new` /
`new_syscall`. -/
def readNode (prev : List MastNode) :
    List WItem → Except DeserializationError (MastNode × List WItem)
  | WItem.nat 0 :: WItem.nat num_ops :: items =>
      match readNats num_ops items with
      | Except.error e => Except.error e
      | Except.ok (ops, rest) => Except.ok (MastNode.block ops, rest)
  | WItem.nat 1 :: WItem.nat left :: WItem.nat right :: items =>
      match prev[left]?, prev[right]? with
      | some nl, some nr =>
          Except.ok
            (MastNode.join left right
              (Digest.mergeInDomain nl.digest nr.digest OPCODE_JOIN), items)
      | _, _ => Except.error DeserializationError.invalidEntry
  | WItem.nat 2 :: WItem.nat then_ :: WItem.nat else_ :: items =>
      match prev[then_]?, prev[else_]? with
      | some nt, some ne =>
          Except.ok
            (MastNode.split then_ else_
              (Digest.mergeInDomain nt.digest ne.digest OPCODE_SPLIT), items)
      | _, _ => Except.error DeserializationError.invalidEntry
  | WItem.nat 3 :: WItem.nat body :: items =>
      match prev[body]? with
      | some nb =>
          Except.ok
            (MastNode.loop body
              (Digest.mergeInDomain nb.digest zeroWord OPCODE_LOOP), items)
      | none => Except.error DeserializationError.invalidEntry
  | WItem.nat 4 :: WItem.nat callee :: WItem.nat flag :: items =>
      match prev[callee]? with
      | some nc =>
          if flag = 1 then
            Except.ok
              (MastNode.call
                ⟨callee, true, Digest.mergeInDomain nc.digest zeroWord SYSCALL_DOMAIN⟩,
                items)
          else if flag = 0 then
            Except.ok
              (MastNode.call
                ⟨callee, false, Digest.mergeInDomain nc.digest zeroWord CALL_DOMAIN⟩,
                items)
          else Except.error DeserializationError.invalidEntry
      | none => Except.error DeserializationError.invalidEntry
  | WItem.nat 5 :: items => Except.ok (MastNode.dyn, items)
  | WItem.nat 6 :: WItem.dig d :: items => Except.ok (MastNode.external d, items)
  | _ => Except.error DeserializationError.invalidEntry

/-- Read `k` nodes, accumulating the nodes read so far. -/
def readNodes : Nat → List MastNode → List WItem →
    Except DeserializationError (List MastNode × List WItem)
  | 0, acc, items => Except.ok (acc, items)
  | Nat.succ k, acc, items =>
      match readNode acc items with
      | Except.error e => Except.error e
      | Except.ok (node, rest) => readNodes k (acc ++ [node]) rest

/-- `MastForest::read_from` per spec §6.2. -/
def LMastForest.read_from :
    List WItem → Except DeserializationError (LMastForest × List WItem)
  | WItem.nat num_nodes :: items =>
      match readNodes num_nodes [] items with
      | Except.error e => Except.error e
      | Except.ok (nodes, rest1) =>
          match rest1 with
          | WItem.nat num_roots :: rest2 =>
              match readNats num_roots rest2 with
              | Except.error e => Except.error e
              | Except.ok (roots, rest3) => Except.ok (⟨nodes, roots⟩, rest3)
          | _ => Except.error DeserializationError.unexpectedEOF
  | _ => Except.error DeserializationError.unexpectedEOF

/-- Read one fully qualified name per spec §6.2. -/
def readFQN :
    List WItem → Except DeserializationError (FullyQualifiedProcedureName × List WItem)
  | WItem.nat num_components :: items =>
      match readStrs num_components items with
      | Except.error e => Except.error e
      | Except.ok (module, rest1) =>
          match rest1 with
          | WItem.str name :: rest2 => Except.ok (⟨module, name⟩, rest2)
          | _ => Except.error DeserializationError.unexpectedEOF
  | _ => Except.error DeserializationError.unexpectedEOF

/-- Read `k` exports. -/
def readExports : Nat → List WItem →
    Except DeserializationError (List FullyQualifiedProcedureName × List WItem)
  | 0, items => Except.ok ([], items)
  | Nat.succ k, items =>
      match readFQN items with
      | Except.error e => Except.error e
      | Except.ok (p, rest) =>
          match readExports k rest with
          | Except.error e => Except.error e
          | Except.ok (ps, rest2) => Except.ok (p :: ps, rest2)

/-- `CompiledLibrary::read_from_with_options` (`library/mod.rs` lines
123-141): read the forest, the export count, then the exports. -/
def CompiledLibrary.read_from_with_options (items : List WItem) :
    Except DeserializationError (CompiledLibrary × List WItem) :=
  match LMastForest.read_from items with
  | Except.error e => Except.error e
  | Except.ok (mast_forest, rest1) =>
      match rest1 with
      | WItem.nat num_exports :: rest2 =>
          match readExports num_exports rest2 with
          | Except.error e => Except.error e
          | Except.ok (exports, rest3) => Except.ok (⟨mast_forest, exports⟩, rest3)
      | _ => Except.error DeserializationError.unexpectedEOF

/-- `KernelLibrary::read_from_with_options` (`library/mod.rs` lines
215-226): read a `CompiledLibrary`, then re-validate it via
`TryFrom`, converting any validation error into a
`DeserializationError`.  `none` propagates a `TryFrom` indexing panic:
on such streams the source panics rather than returning anything. -/
def KernelLibrary.read_from_with_options (items : List WItem) :
    Option (Except DeserializationError (KernelLibrary × List WItem)) :=
  match CompiledLibrary.read_from_with_options items with
  | Except.error e => some (Except.error e)
  | Except.ok (library, rest) =>
      match KernelLibrary.tryFrom library with
      | none => none
      | some (Except.error e) => some (Except.error (DeserializationError.invalidValue e))
      | some (Except.ok kl) => some (Except.ok (kl, rest))

/-- Digest consistency of one node against the previously inserted nodes
(spec §3.1 invariants): every child id refers to an already-inserted node
and the stored digest is the one recomputed from the children — which is
what deserialization rebuilds by re-hashing. -/
def wfNode (prev : List MastNode) : MastNode → Bool
  | .block _ => true
  | .join left right d =>
      match prev[left]?, prev[right]? with
      | some nl, some nr =>
          decide (d = Digest.mergeInDomain nl.digest nr.digest OPCODE_JOIN)
      | _, _ => false
  | .split then_ else_ d =>
      match prev[then_]?, prev[else_]? with
      | some nt, some ne =>
          decide (d = Digest.mergeInDomain nt.digest ne.digest OPCODE_SPLIT)
      | _, _ => false
  | .loop body d =>
      match prev[body]? with
      | some nb => decide (d = Digest.mergeInDomain nb.digest zeroWord OPCODE_LOOP)
      | none => false
  | .call c =>
      match prev[c.callee]? with
      | some nc =>
          decide (c.digest =
            Digest.mergeInDomain nc.digest zeroWord
              (if c.is_syscall then SYSCALL_DOMAIN else CALL_DOMAIN))
      | none => false
  | .dyn => true
  | .external _ => true

/-- Digest consistency of a node sequence, each against its prefix. -/
def wfNodes (prev : List MastNode) : List MastNode → Bool
  | [] => true
  | n :: rest => wfNode prev n && wfNodes (prev ++ [n]) rest

/-- Digest consistency of a whole forest. -/
def LMastForest.wf (f : LMastForest) : Bool := wfNodes [] f.nodes

-- Roundtrip lemmas

theorem readNats_serialize (xs : List Nat) :
    ∀ rest, readNats xs.length (xs.map WItem.nat ++ rest) = Except.ok (xs, rest) := by
  induction xs with
  | nil => intro rest; rfl
  | cons x tail ih =>
      intro rest
      simp only [List.map_cons, List.length_cons, List.cons_append]
      simp only [readNats]
      rw [ih rest]

theorem readStrs_serialize (xs : List String) :
    ∀ rest, readStrs xs.length (xs.map WItem.str ++ rest) = Except.ok (xs, rest) := by
  induction xs with
  | nil => intro rest; rfl
  | cons x tail ih =>
      intro rest
      simp only [List.map_cons, List.length_cons, List.cons_append]
      simp only [readStrs]
      rw [ih rest]

theorem readNode_serialize (prev : List MastNode) (n : MastNode)
    (h : wfNode prev n = true) :
    ∀ rest, readNode prev (serializeNode n ++ rest) = Except.ok (n, rest) := by
  cases n with
  | block ops =>
      intro rest
      simp only [serializeNode, List.cons_append]
      simp only [readNode]
      rw [readNats_serialize ops rest]
  | join left right d =>
      intro rest
      simp only [wfNode] at h
      cases hl : prev[left]? with
      | none => rw [hl] at h; exact Bool.noConfusion h
      | some nl =>
          cases hr : prev[right]? with
          | none => rw [hl, hr] at h; exact Bool.noConfusion h
          | some nr =>
              rw [hl, hr] at h
              have hd : d = Digest.mergeInDomain nl.digest nr.digest OPCODE_JOIN :=
                of_decide_eq_true h
              simp only [serializeNode, List.cons_append, List.nil_append]
              simp only [readNode]
              rw [hl, hr, hd]
  | split then_ else_ d =>
      intro rest
      simp only [wfNode] at h
      cases hl : prev[then_]? with
      | none => rw [hl] at h; exact Bool.noConfusion h
      | some nt =>
          cases hr : prev[else_]? with
          | none => rw [hl, hr] at h; exact Bool.noConfusion h
          | some ne =>
              rw [hl, hr] at h
              have hd : d = Digest.mergeInDomain nt.digest ne.digest OPCODE_SPLIT :=
                of_decide_eq_true h
              simp only [serializeNode, List.cons_append, List.nil_append]
              simp only [readNode]
              rw [hl, hr, hd]
  | loop body d =>
      intro rest
      simp only [wfNode] at h
      cases hb : prev[body]? with
      | none => rw [hb] at h; exact Bool.noConfusion h
      | some nb =>
          rw [hb] at h
          have hd : d = Digest.mergeInDomain nb.digest zeroWord OPCODE_LOOP :=
            of_decide_eq_true h
          simp only [serializeNode, List.cons_append, List.nil_append]
          simp only [readNode]
          rw [hb, hd]
  | call c =>
      intro rest
      obtain ⟨callee, is_sys, d⟩ := c
      simp only [wfNode] at h
      cases hc : prev[callee]? with
      | none => rw [hc] at h; exact Bool.noConfusion h
      | some nc =>
          rw [hc] at h
          have hd : d =
              Digest.mergeInDomain nc.digest zeroWord
                (if is_sys then SYSCALL_DOMAIN else CALL_DOMAIN) :=
            of_decide_eq_true h
          cases is_sys with
          | true =>
              simp only [serializeNode, List.cons_append, List.nil_append]
              simp only [readNode]
              rw [hc]
              simp [hd]
          | false =>
              simp only [serializeNode, List.cons_append, List.nil_append]
              simp only [readNode]
              rw [hc]
              simp [hd]
  | dyn =>
      intro rest
      rfl
  | external d =>
      intro rest
      rfl

theorem readNodes_serialize (ns : List MastNode) :
    ∀ (acc : List MastNode) (rest : List WItem), wfNodes acc ns = true →
      readNodes ns.length acc (serializeNodes ns ++ rest) = Except.ok (acc ++ ns, rest) := by
  induction ns with
  | nil =>
      intro acc rest _
      simp only [serializeNodes, List.nil_append, List.length_nil, readNodes,
        List.append_nil]
  | cons n tail ih =>
      intro acc rest h
      rw [wfNodes, Bool.and_eq_true] at h
      simp only [serializeNodes, List.length_cons, List.append_assoc]
      simp only [readNodes]
      rw [readNode_serialize acc n h.1]
      show readNodes tail.length (acc ++ [n]) (serializeNodes tail ++ rest) =
        Except.ok (acc ++ n :: tail, rest)
      rw [ih (acc ++ [n]) rest h.2]
      rw [List.append_assoc, List.singleton_append]

theorem forest_read_serialize (f : LMastForest) (h : f.wf = true) :
    ∀ rest, LMastForest.read_from (f.write_into ++ rest) = Except.ok (f, rest) := by
  intro rest
  simp only [LMastForest.write_into, List.cons_append, List.append_assoc]
  simp only [LMastForest.read_from]
  rw [readNodes_serialize f.nodes [] _ h]
  show (match readNats f.roots.length (f.roots.map WItem.nat ++ rest) with
    | Except.error e => Except.error e
    | Except.ok (roots, rest3) =>
        Except.ok ((⟨[] ++ f.nodes, roots⟩ : LMastForest), rest3)) =
    Except.ok (f, rest)
  rw [readNats_serialize f.roots rest]
  rw [List.nil_append]

theorem readFQN_serialize (p : FullyQualifiedProcedureName) :
    ∀ rest, readFQN (serializeFQN p ++ rest) = Except.ok (p, rest) := by
  intro rest
  obtain ⟨module, name⟩ := p
  simp only [serializeFQN, List.cons_append, List.append_assoc, List.singleton_append,
    List.nil_append]
  simp only [readFQN]
  rw [readStrs_serialize module (WItem.str name :: rest)]

theorem readExports_serialize (exps : List FullyQualifiedProcedureName) :
    ∀ rest, readExports exps.length (serializeExports exps ++ rest) =
      Except.ok (exps, rest) := by
  induction exps with
  | nil => intro rest; rfl
  | cons p tail ih =>
      intro rest
      simp only [serializeExports, List.length_cons, List.append_assoc]
      simp only [readExports]
      rw [readFQN_serialize p]
      show (match readExports tail.length (serializeExports tail ++ rest) with
        | Except.error e => Except.error e
        | Except.ok (ps, rest2) => Except.ok (p :: ps, rest2)) =
        Except.ok (p :: tail, rest)
      rw [ih rest]

theorem compiled_library_read_serialize (lib : CompiledLibrary)
    (h : lib.mast_forest.wf = true) :
    ∀ rest, CompiledLibrary.read_from_with_options
        (lib.write_into_with_options ++ rest) = Except.ok (lib, rest) := by
  intro rest
  simp only [CompiledLibrary.write_into_with_options, List.append_assoc,
    List.cons_append]
  simp only [CompiledLibrary.read_from_with_options]
  rw [forest_read_serialize lib.mast_forest h]
  show (match readExports lib.exports.length (serializeExports lib.exports ++ rest) with
    | Except.error e => Except.error e
    | Except.ok (exports, rest3) =>
        Except.ok ((⟨lib.mast_forest, exports⟩ : CompiledLibrary), rest3)) =
    Except.ok (lib, rest)
  rw [readExports_serialize lib.exports rest]

/-- C7: serializing a `CompiledLibrary` and deserializing the bytes
yields the original library pointwise — the same forest nodes and
procedure roots and the same exports in the same order — and a
`KernelLibrary` (whose serialization is that of its underlying library)
round-trips to the same kernel library, including its kernel.  The
hypothesis `wf` is the digest consistency that deserialization rebuilds
by re-hashing; `tryFrom` on the underlying library is how a kernel
library comes to exist. -/
theorem library_serialization_roundtrip :
    (∀ lib : CompiledLibrary, lib.mast_forest.wf = true →
        CompiledLibrary.read_from_with_options lib.write_into_with_options =
          Except.ok (lib, [])) ∧
      ∀ kl : KernelLibrary, kl.library.mast_forest.wf = true →
        KernelLibrary.tryFrom kl.library = some (Except.ok kl) →
        KernelLibrary.read_from_with_options kl.write_into_with_options =
          some (Except.ok (kl, [])) := by
  have hcl : ∀ lib : CompiledLibrary, lib.mast_forest.wf = true →
      CompiledLibrary.read_from_with_options lib.write_into_with_options =
        Except.ok (lib, []) := by
    intro lib h
    have h2 := compiled_library_read_serialize lib h []
    rwa [List.append_nil] at h2
  refine ⟨hcl, ?_⟩
  intro kl hwf htry
  unfold KernelLibrary.read_from_with_options KernelLibrary.write_into_with_options
  rw [hcl kl.library hwf]
  show (match KernelLibrary.tryFrom kl.library with
    | none => none
    | some (Except.error e) => some (Except.error (DeserializationError.invalidValue e))
    | some (Except.ok kl2) => some (Except.ok (kl2, ([] : List WItem)))) =
    some (Except.ok (kl, []))
  rw [htry]

/-- Witness for C7 at a concrete input: a library with one `Dyn` node as
its only procedure root, exported as `#sys::f`, and the kernel library
built from it. -/
theorem library_serialization_roundtrip_witness :
    CompiledLibrary.read_from_with_options
        (CompiledLibrary.write_into_with_options
          ⟨⟨[MastNode.dyn], [0]⟩, [⟨["#sys"], "f"⟩]⟩) =
      Except.ok (⟨⟨[MastNode.dyn], [0]⟩, [⟨["#sys"], "f"⟩]⟩, []) ∧
      KernelLibrary.read_from_with_options
          (KernelLibrary.write_into_with_options
            ⟨⟨[Digest.dynDigest]⟩, ⟨kernelPath, [⟨"f", Digest.dynDigest⟩]⟩,
              ⟨⟨[MastNode.dyn], [0]⟩, [⟨["#sys"], "f"⟩]⟩⟩) =
        some (Except.ok
          (⟨⟨[Digest.dynDigest]⟩, ⟨kernelPath, [⟨"f", Digest.dynDigest⟩]⟩,
            ⟨⟨[MastNode.dyn], [0]⟩, [⟨["#sys"], "f"⟩]⟩⟩, [])) :=
  ⟨library_serialization_roundtrip.1 ⟨⟨[MastNode.dyn], [0]⟩, [⟨["#sys"], "f"⟩]⟩ rfl,
    library_serialization_roundtrip.2
      ⟨⟨[Digest.dynDigest]⟩, ⟨kernelPath, [⟨"f", Digest.dynDigest⟩]⟩,
        ⟨⟨[MastNode.dyn], [0]⟩, [⟨["#sys"], "f"⟩]⟩⟩ rfl rfl⟩

theorem kernelExportLoop_err_of_bad (f : LMastForest)
    (exps : List FullyQualifiedProcedureName) :
    ∀ i, (∃ p ∈ exps, p.module ≠ kernelPath) →
      (∀ j, j < exps.length → (f.rootDigest (i + j)).isSome = true) →
      ∃ e, kernelExportLoop f i exps = some (Except.error e) := by
  induction exps with
  | nil =>
      intro i h _
      obtain ⟨p, hp, _⟩ := h
      cases hp
  | cons q rest ih =>
      intro i h halign
      by_cases hq : q.module ≠ kernelPath
      · refine ⟨CompiledLibraryError.invalidKernelExport q, ?_⟩
        unfold kernelExportLoop
        rw [if_pos hq]
      · have hqk : q.module = kernelPath := not_ne_iff.mp hq
        have hsome := halign 0 (Nat.succ_pos rest.length)
        rw [Nat.add_zero] at hsome
        obtain ⟨d, hd⟩ := Option.isSome_iff_exists.mp hsome
        obtain ⟨p, hp, hpm⟩ := h
        have hp2 : p ∈ rest := by
          cases List.mem_cons.mp hp with
          | inl heq => exact absurd (heq ▸ hpm) hq
          | inr h2 => exact h2
        obtain ⟨e, he⟩ := ih (i + 1) ⟨p, hp2, hpm⟩ (fun j hj => by
          have h2 := halign (j + 1) (Nat.succ_lt_succ hj)
          rwa [show i + (j + 1) = i + 1 + j from by omega] at h2)
        refine ⟨e, ?_⟩
        rw [kernelExportLoop_cons_step f q rest i d hqk hd, he]

theorem tryFrom_err_of_invalid (lib : CompiledLibrary)
    (halign : lib.rootsAligned)
    (h : (∃ p ∈ lib.exports, p.module ≠ kernelPath) ∨ 256 < lib.exports.length) :
    ∃ e, KernelLibrary.tryFrom lib = some (Except.error e) := by
  by_cases hex : ∃ p ∈ lib.exports, p.module ≠ kernelPath
  · obtain ⟨e, he⟩ := kernelExportLoop_err_of_bad lib.mast_forest lib.exports 0 hex
      (fun j hj => by rw [Nat.zero_add]; exact halign j hj)
    refine ⟨e, ?_⟩
    unfold KernelLibrary.tryFrom
    rw [he]
  · have hall : ∀ p ∈ lib.exports, p.module = kernelPath := by
      intro p hp
      by_contra hne
      exact hex ⟨p, hp, hne⟩
    have hgt : 256 < lib.exports.length := h.resolve_left hex
    refine ⟨CompiledLibraryError.kernel
      (KernelError.tooManyProcedures lib.exports.length), ?_⟩
    rw [tryFrom_after_loop lib _ _ (kernelExportLoop_ok lib.mast_forest lib.exports 0 hall
      (fun j hj => by rw [Nat.zero_add]; exact halign j hj))]
    have hlen : ((List.range' 0 lib.exports.length).filterMap
        lib.mast_forest.rootDigest).length = lib.exports.length :=
      rootDigest_filterMap_length lib.mast_forest lib.exports.length 0
        (fun j hj => by rw [Nat.zero_add]; exact halign j hj)
    have hk : Kernel.new ((List.range' 0 lib.exports.length).filterMap
        lib.mast_forest.rootDigest) =
        Except.error (KernelError.tooManyProcedures lib.exports.length) := by
      unfold Kernel.new Kernel.MAX_NUM_PROCEDURES
      rw [hlen]
      rw [if_pos hgt]
    rw [hk]

/-- C10 counterexample: the claim as stated fails on streams whose
decoded exports outnumber the forest's procedure roots.  The stream
serializing forest nodes `[Dyn]` with NO procedure roots and exports
`[#sys::a, foo::b]` decodes to a `CompiledLibrary` whose exports are not
all under `#sys`, yet `KernelLibrary::read_from_with_options` does not
return a `DeserializationError`: the re-validation passes the `#sys`
check for export 0 and then hits the out-of-range
`procedure_roots()[0]` (`library/mod.rs` line 180), a panic (`none`),
never reaching an error return. -/
theorem kernel_deserialization_panic_counterexample :
    CompiledLibrary.read_from_with_options
        (CompiledLibrary.write_into_with_options
          ⟨⟨[MastNode.dyn], []⟩, [⟨["#sys"], "a"⟩, ⟨["foo"], "b"⟩]⟩) =
      Except.ok (⟨⟨[MastNode.dyn], []⟩, [⟨["#sys"], "a"⟩, ⟨["foo"], "b"⟩]⟩, []) ∧
      (∃ p ∈ (⟨⟨[MastNode.dyn], []⟩,
          [⟨["#sys"], "a"⟩, ⟨["foo"], "b"⟩]⟩ : CompiledLibrary).exports,
        p.module ≠ kernelPath) ∧
      KernelLibrary.read_from_with_options
          (CompiledLibrary.write_into_with_options
            ⟨⟨[MastNode.dyn], []⟩, [⟨["#sys"], "a"⟩, ⟨["foo"], "b"⟩]⟩) = none :=
  ⟨rfl, by decide, rfl⟩

/-- C10 (amended): `KernelLibrary::read_from_with_options` re-validates
the kernel constraints on every stream whose decoded exports line up with
valid procedure roots (each export index has a root that is a valid node
id — in particular the exports do not outnumber the roots; off this
domain the re-validation panics on its indexing instead): if such a
stream's exports are not all under the kernel namespace `#sys`, or
violate the 256-procedure kernel size limit, the read returns a
`DeserializationError` instead of producing a kernel library. -/
theorem kernel_deserialization_revalidates (items rest : List WItem)
    (lib : CompiledLibrary)
    (hread : CompiledLibrary.read_from_with_options items = Except.ok (lib, rest))
    (halign : lib.rootsAligned)
    (hbad : (∃ p ∈ lib.exports, p.module ≠ kernelPath) ∨ 256 < lib.exports.length) :
    ∃ e, KernelLibrary.read_from_with_options items =
      some (Except.error (DeserializationError.invalidValue e)) := by
  obtain ⟨e, he⟩ := tryFrom_err_of_invalid lib halign hbad
  refine ⟨e, ?_⟩
  unfold KernelLibrary.read_from_with_options
  rw [hread]
  show (match KernelLibrary.tryFrom lib with
    | none => none
    | some (Except.error e) => some (Except.error (DeserializationError.invalidValue e))
    | some (Except.ok kl) => some (Except.ok (kl, rest))) =
    some (Except.error (DeserializationError.invalidValue e))
  rw [he]

/-- Witness for the amended C10 at a concrete input: the serialization of
a root-aligned library whose only export is `foo::f` (not under `#sys`)
is rejected by `KernelLibrary::read_from_with_options`. -/
theorem kernel_deserialization_revalidates_witness :
    ∃ e, KernelLibrary.read_from_with_options
        (CompiledLibrary.write_into_with_options
          ⟨⟨[MastNode.dyn], [0]⟩, [⟨["foo"], "f"⟩]⟩) =
      some (Except.error (DeserializationError.invalidValue e)) :=
  kernel_deserialization_revalidates
    (CompiledLibrary.write_into_with_options ⟨⟨[MastNode.dyn], [0]⟩, [⟨["foo"], "f"⟩]⟩)
    [] ⟨⟨[MastNode.dyn], [0]⟩, [⟨["foo"], "f"⟩]⟩ rfl
    (by decide) (Or.inl (by decide))

end Miden
